import Mathlib

/-!
Verification development for the ScriptsNessAuth file-hosting service
(`src/server.js`).  The definitions below are a shallow embedding of the
code: routes become pure functions over an explicit user-store / filesystem
state, Node's `path` operations are modelled over segment lists, and the
`sanitize-filename` dependency (whose source is not vendored in this
repository) is modelled from the specification of the Path Sanitizer.
-/

namespace ScriptsNessAuth

/-! ### Path Sanitizer

Modelled from the spec: the `sanitize` function is provided by the external
`sanitize-filename` package whose source is not under `src/`; the model
follows spec §4.1: it removes characters illegal or dangerous in a single
path segment — path separators, `..` sequences, null bytes, and leading
dots — and is intended to be idempotent. -/

/-- A character that may not appear in a path segment: the path separators
`/` and `\` and the null byte. -/
def isIllegalChar (c : Char) : Bool :=
  c = '/' || c = '\\' || c = Char.ofNat 0

/-- Remove every `..` pair of consecutive dots in one left-to-right pass. -/
def removeDotDot : List Char → List Char
  | [] => []
  | [c] => [c]
  | a :: b :: rest =>
    if a = '.' ∧ b = '.' then removeDotDot rest
    else a :: removeDotDot (b :: rest)

/-- Does the character list contain two consecutive dots (a `..` sequence)? -/
def hasDD : List Char → Bool
  | a :: b :: rest => if a = '.' ∧ b = '.' then true else hasDD (b :: rest)
  | _ => false

/-- Drop the leading dots of a path segment. -/
def dropLeadingDots (l : List Char) : List Char :=
  l.dropWhile (fun c => c = '.')

/-- Sanitization on character lists: remove illegal characters, then `..`
sequences, then leading dots. -/
def sanitizeChars (l : List Char) : List Char :=
  dropLeadingDots (removeDotDot (l.filter (fun c => !isIllegalChar c)))

/-- Modelled from the spec: `sanitize(raw)` of the `sanitize-filename`
package — strips path separators, null bytes, `..` sequences and leading
dots from a string used as a single path segment. -/
def sanitize (s : String) : String :=
  ⟨sanitizeChars s.data⟩

/-- Does the string contain a path separator (`/` or `\`)? -/
def containsSep (s : String) : Bool :=
  s.data.any (fun c => c = '/' || c = '\\')

/-- Does the string contain the substring `..`? -/
def containsDotDot (s : String) : Bool :=
  hasDD s.data

/-! ### Node `path` model

Absolute paths are segment lists (a path `/a/b` is `["a", "b"]`).
`resolvePath` embeds `path.resolve(base, rel)` for an already-resolved
absolute `base`, and `pathStr` renders a path back to its string form, as
used by the `filePath.startsWith(userDir)` check in `src/server.js`. -/

/-- Split a character list at every `/`, keeping empty parts (the semantics
of splitting the relative path into segments). -/
def splitSlash : List Char → List (List Char)
  | [] => [[]]
  | c :: rest =>
    if c = '/' then [] :: splitSlash rest
    else
      match splitSlash rest with
      | [] => [[c]]
      | h :: t => (c :: h) :: t

/-- One step of path normalization: empty and `.` segments are dropped,
`..` pops the previous segment (staying at the root), and any other
segment is appended. -/
def normStep (acc : List String) (seg : String) : List String :=
  if seg = "" ∨ seg = "." then acc
  else if seg = ".." then acc.dropLast
  else acc ++ [seg]

/-- Embedding of `path.resolve(base, rel)` for an absolute, already
normalized `base`: an absolute `rel` discards `base`, then segments are
normalized left to right. -/
def resolvePath (base : List String) (rel : String) : List String :=
  let parts := (splitSlash rel.data).map (fun cs => (⟨cs⟩ : String))
  let start := match rel.data with
    | '/' :: _ => ([] : List String)
    | _ => base
  parts.foldl normStep start

/-- Render an absolute segment-list path to its string form, `/a/b`. -/
def pathStr (p : List String) : String :=
  p.foldl (fun acc seg => acc ++ ("/") ++ seg) ("")

/-- Embedding of JavaScript `String.prototype.startsWith`: character-level
string prefix. -/
def jsStartsWith (s p : String) : Bool :=
  p.data.isPrefixOf s.data

/-- Is `p` genuinely inside the directory `dir` (segment-level)? -/
def withinDir (dir p : List String) : Bool :=
  dir.isPrefixOf p

/-! ### Node `path.extname` model -/

/-- Strip trailing slashes, as Node's basename handling does. -/
def stripTrailingSlashes (l : List Char) : List Char :=
  (l.reverse.dropWhile (fun c => c = '/')).reverse

/-- Characters after the last `/` (the basename of the path). -/
def basenameChars (l : List Char) : List Char :=
  ((stripTrailingSlashes l).reverse.takeWhile (fun c => c ≠ '/')).reverse

/-- Extension of a basename: from the last dot to the end, empty when there
is no dot, when the only dot is the leading character, or when the basename
is `..`. -/
def extOfBasename (b : List Char) : List Char :=
  if '.' ∈ b then
    let after := (b.reverse.takeWhile (fun c => c ≠ '.')).reverse
    if after.length + 1 = b.length then []
    else if b = ['.', '.'] then []
    else '.' :: after
  else []

/-- Embedding of Node `path.extname`. -/
def extname (p : String) : String :=
  ⟨extOfBasename (basenameChars p.data)⟩

/-- Lower-case a string character-wise (ASCII), as `.toLowerCase()` does on
extensions. -/
def lowerStr (s : String) : String :=
  ⟨s.data.map Char.toLower⟩

/-! ### User store (`data/users.json`) -/

/-- One account record, as stored in `users.json`. -/
structure User where
  id : Nat
  username : String
  passwordHash : String
deriving DecidableEq, Repr

/-- The user-store snapshot: `{ users: [...], nextId: N }`. -/
structure DB where
  users : List User
  nextId : Nat
deriving DecidableEq, Repr

/-- The snapshot `src/server.js` writes when `users.json` is absent. -/
def initialDB : DB :=
  ⟨[], 1⟩

/-- Store invariant: `nextId` exceeds every issued id and usernames are
pairwise distinct. -/
def StoreInv (db : DB) : Prop :=
  (∀ u ∈ db.users, u.id < db.nextId) ∧ (db.users.map User.username).Nodup

/-! ### Registration (`POST /api/register`) -/

/-- Observable outcome of a register request: HTTP status and body message,
plus the side effects — the snapshot written back (if any), the upload
directory created (if any) and the session established (if any). -/
structure RegResult where
  status : Nat
  body : String
  savedDb : Option DB
  dirCreated : Option String
  sessionSet : Option (Nat × String)
deriving DecidableEq, Repr

/-- Embedding of the `POST /api/register` handler (`src/server.js` lines
80–103).  The bcrypt hash is abstracted as a function argument. -/
def register (hash : String → String) (db : DB) (username password : String) :
    RegResult :=
  if username = "" ∨ password = "" then
    ⟨400, "username e password são obrigatórios", none, none, none⟩
  else if sanitize username ≠ username then
    ⟨400, "username inválido", none, none, none⟩
  else if (db.users.find? (fun u => u.username = username)).isSome then
    ⟨400, "Usuário já existe", none, none, none⟩
  else
    let passwordHash := hash password
    let user : User := ⟨db.nextId, username, passwordHash⟩
    let db' : DB := ⟨db.users ++ [user], db.nextId + 1⟩
    ⟨200, username, some db', some (sanitize username), some (user.id, user.username)⟩

/-! ### Login (`POST /api/login`) -/

/-- Observable outcome of a login request. -/
structure LoginResult where
  status : Nat
  body : String
  sessionSet : Option (Nat × String)
deriving DecidableEq, Repr

/-- Embedding of the `POST /api/login` handler (`src/server.js` lines
105–120).  `compare` abstracts `bcrypt.compareSync`. -/
def login (compare : String → String → Bool) (db : DB)
    (username password : String) : LoginResult :=
  if username = "" ∨ password = "" then
    ⟨400, "username e password são obrigatórios", none⟩
  else
    match db.users.find? (fun u => u.username = username) with
    | none => ⟨400, "Credenciais inválidas", none⟩
    | some u =>
      if compare password u.passwordHash then
        ⟨200, u.username, some (u.id, u.username)⟩
      else
        ⟨400, "Credenciais inválidas", none⟩

/-! ### Upload (`POST /upload`) -/

/-- The file as multer sees it: the declared original name and total byte
size of the stream. -/
structure UploadedFile where
  originalname : String
  size : Nat
deriving DecidableEq, Repr

/-- Observable outcome of an upload request. `stored dir name` means exactly
one file `name` was written in the per-user directory `dir` under the
uploads root. -/
inductive UploadOutcome
  | unauthorized
  | unsupportedType
  | payloadTooLarge
  | noFile
  | stored (dir : String) (name : String)
deriving DecidableEq, Repr

/-- The `ALLOWED_EXT` set of `src/server.js`. -/
def ALLOWED_EXT : List String :=
  [".lua", ".txt"]

/-- The multer `fileSize` limit: 5 MiB. -/
def FILE_SIZE_LIMIT : Nat :=
  5 * 1024 * 1024

/-- Embedding of the `requireLogin` middleware: pass the session through or
stop with 401. -/
def requireLogin (sess : Option (Nat × String)) :
    Except UploadOutcome (Nat × String) :=
  match sess with
  | some s => Except.ok s
  | none => Except.error UploadOutcome.unauthorized

/-- Embedding of multer's `fileFilter` (`src/server.js` lines 65–71):
the lower-cased extension of the original name must be allowed. -/
def fileFilter (originalname : String) : Except UploadOutcome Unit :=
  if ALLOWED_EXT.contains (lowerStr (extname originalname)) then Except.ok ()
  else Except.error UploadOutcome.unsupportedType

/-- Embedding of `storage.filename` (`src/server.js` lines 58–62): the
stored name is `Date.now() + '-' + random + '-' + (sanitize(orig) || 'file')`. -/
def storedFilename (ts rnd : Nat) (originalname : String) : String :=
  toString ts ++ ("-") ++ toString rnd ++ ("-") ++
    (if sanitize originalname = "" then ("file") else sanitize originalname)

/-- Embedding of `upload.single('file')`: no file passes through; otherwise
`fileFilter` runs first, then the 5 MiB `limits.fileSize` cap, and only then
is the file stored under `uploads/<sanitize(username)>/<generated name>`. -/
def multerSingle (ts rnd : Nat) (username : String) (file : Option UploadedFile) :
    Except UploadOutcome (Option (String × String)) :=
  match file with
  | none => Except.ok none
  | some f =>
    match fileFilter f.originalname with
    | Except.error e => Except.error e
    | Except.ok _ =>
      if f.size > FILE_SIZE_LIMIT then Except.error UploadOutcome.payloadTooLarge
      else Except.ok (some (sanitize username, storedFilename ts rnd f.originalname))

/-- Embedding of the `POST /upload` route: `requireLogin`, then multer,
then the handler's missing-file check. `ts` and `rnd` stand for the
timestamp and random draw of the storage callback. -/
def uploadRoute (ts rnd : Nat) (sess : Option (Nat × String))
    (file : Option UploadedFile) : UploadOutcome :=
  match requireLogin sess with
  | Except.error e => e
  | Except.ok s =>
    match multerSingle ts rnd s.2 file with
    | Except.error e => e
    | Except.ok none => UploadOutcome.noFile
    | Except.ok (some (dir, name)) => UploadOutcome.stored dir name

/-! ### Raw file serving (`GET /raw/:username/:filename`) -/

/-- Filesystem state: the regular files and the directories that exist,
both as absolute segment-list paths. -/
structure FS where
  files : List (List String)
  dirs : List (List String)
deriving DecidableEq, Repr

/-- Embedding of `fs.existsSync`: true for regular files and directories. -/
def fsExists (fs : FS) (p : List String) : Bool :=
  fs.files.contains p || fs.dirs.contains p

/-- Observable outcome of a raw-serve request: 400, 404, or streaming the
bytes at the resolved path. -/
inductive ServeResult
  | badRequest
  | notFound
  | send (p : List String)
deriving DecidableEq, Repr

/-- Embedding of the `GET /raw/:username/:filename` handler
(`src/server.js` lines 164–177): sanitize the username, resolve
`userDir` and `filePath`, reject with 400 unless the resolved path string
starts with the user-directory string, 404 unless the path exists, and
otherwise send the file at the resolved path. -/
def serve (uploadsRoot : List String) (fs : FS) (username filename : String) :
    ServeResult :=
  let userDir := resolvePath uploadsRoot (sanitize username)
  let filePath := resolvePath userDir filename
  if !jsStartsWith (pathStr filePath) (pathStr userDir) then ServeResult.badRequest
  else if !fsExists fs filePath then ServeResult.notFound
  else ServeResult.send filePath


/-! ### Lemmas about the sanitizer -/

lemma hasDD_cons_of (c : Char) {l : List Char} (h : hasDD l = true) :
    hasDD (c :: l) = true := by
  match l with
  | [] => simp [hasDD] at h
  | b :: rest =>
    rw [hasDD]
    split
    · rfl
    · exact h

lemma hasDD_tail {a : Char} {l : List Char} (h : hasDD (a :: l) = false) :
    hasDD l = false := by
  match l with
  | [] => rfl
  | b :: rest =>
    rw [hasDD] at h
    split at h
    · exact absurd h (by simp)
    · exact h

lemma removeDotDot_head_ne {b : Char} (hb : ¬ b = '.') (rest : List Char) :
    ∃ t, removeDotDot (b :: rest) = b :: t := by
  match rest with
  | [] => exact ⟨[], rfl⟩
  | c :: rest' =>
    rw [removeDotDot]
    split
    · exact absurd (by exact (by assumption : b = '.' ∧ c = '.').1) hb
    · exact ⟨removeDotDot (c :: rest'), rfl⟩

lemma hasDD_removeDotDot (l : List Char) : hasDD (removeDotDot l) = false := by
  induction l using removeDotDot.induct with
  | case1 => rfl
  | case2 c => rfl
  | case3 a b rest h ih =>
    rw [removeDotDot, if_pos h]
    exact ih
  | case4 a b rest h ih =>
    rw [removeDotDot, if_neg h]
    by_cases ha : a = '.'
    · have hb : ¬ b = '.' := fun hb => h ⟨ha, hb⟩
      obtain ⟨t, ht⟩ := removeDotDot_head_ne hb rest
      rw [ht]
      rw [ht] at ih
      rw [hasDD, if_neg (fun hp => hb hp.2)]
      exact ih
    · match hm : removeDotDot (b :: rest) with
      | [] => rfl
      | c :: t =>
        rw [hasDD, if_neg (fun hp => ha hp.1)]
        rw [hm] at ih
        exact ih

lemma removeDotDot_eq_self {l : List Char} (h : hasDD l = false) :
    removeDotDot l = l := by
  induction l using removeDotDot.induct with
  | case1 => rfl
  | case2 c => rfl
  | case3 a b rest hdd ih =>
    rw [hasDD, if_pos hdd] at h
    exact absurd h (by simp)
  | case4 a b rest hdd ih =>
    rw [removeDotDot, if_neg hdd]
    rw [hasDD, if_neg hdd] at h
    rw [ih h]

lemma hasDD_dropWhile (p : Char → Bool) {l : List Char}
    (h : hasDD l = false) : hasDD (l.dropWhile p) = false := by
  induction l with
  | nil => rfl
  | cons a l ih =>
    rw [List.dropWhile_cons]
    split
    · exact ih (hasDD_tail h)
    · exact h

lemma dropWhile_dropWhile_self (p : Char → Bool) (l : List Char) :
    (l.dropWhile p).dropWhile p = l.dropWhile p := by
  induction l with
  | nil => rfl
  | cons a l ih =>
    rw [List.dropWhile_cons]
    split
    · exact ih
    · rw [List.dropWhile_cons_of_neg (by assumption)]

lemma mem_removeDotDot {c : Char} {l : List Char}
    (h : c ∈ removeDotDot l) : c ∈ l := by
  induction l using removeDotDot.induct with
  | case1 => exact absurd h (by simp [removeDotDot])
  | case2 d => exact h
  | case3 a b rest hdd ih =>
    rw [removeDotDot, if_pos hdd] at h
    exact List.mem_cons_of_mem _ (List.mem_cons_of_mem _ (ih h))
  | case4 a b rest hdd ih =>
    rw [removeDotDot, if_neg hdd] at h
    rcases List.mem_cons.mp h with h | h
    · exact h ▸ List.mem_cons_self _ _
    · exact List.mem_cons_of_mem _ (ih h)

lemma mem_sanitizeChars {c : Char} {l : List Char}
    (h : c ∈ sanitizeChars l) : (!isIllegalChar c) = true := by
  have h1 : c ∈ removeDotDot (l.filter (fun c => !isIllegalChar c)) := by
    have := List.dropWhile_sublist (l := removeDotDot (l.filter (fun c => !isIllegalChar c)))
      (p := (fun c => c = '.'))
    exact this.mem h
  exact List.of_mem_filter (p := fun c => !isIllegalChar c) (mem_removeDotDot h1)

lemma sanitizeChars_idem (l : List Char) :
    sanitizeChars (sanitizeChars l) = sanitizeChars l := by
  have hfilter : (sanitizeChars l).filter (fun c => !isIllegalChar c) = sanitizeChars l :=
    List.filter_eq_self.mpr (fun c hc => mem_sanitizeChars hc)
  have hnodd : hasDD (sanitizeChars l) = false := by
    unfold sanitizeChars dropLeadingDots
    exact hasDD_dropWhile _ (hasDD_removeDotDot _)
  show dropLeadingDots (removeDotDot ((sanitizeChars l).filter (fun c => !isIllegalChar c)))
      = sanitizeChars l
  rw [hfilter, removeDotDot_eq_self hnodd]
  show ((removeDotDot (l.filter (fun c => !isIllegalChar c))).dropWhile
      (fun c => c = '.')).dropWhile (fun c => c = '.') = sanitizeChars l
  rw [dropWhile_dropWhile_self]
  rfl

/-- Idempotence of the sanitizer, shared helper. -/
theorem sanitize_idem (s : String) : sanitize (sanitize s) = sanitize s := by
  unfold sanitize
  exact congrArg String.mk (sanitizeChars_idem s.data)

lemma length_removeDotDot_le (l : List Char) :
    (removeDotDot l).length ≤ l.length := by
  induction l using removeDotDot.induct with
  | case1 => exact Nat.le_refl _
  | case2 c => exact Nat.le_refl _
  | case3 a b rest h ih =>
    rw [removeDotDot, if_pos h]
    exact Nat.le_trans ih (by simp; omega)
  | case4 a b rest h ih =>
    rw [removeDotDot, if_neg h]
    simpa using ih

lemma length_removeDotDot_lt {l : List Char} (h : hasDD l = true) :
    (removeDotDot l).length < l.length := by
  induction l using removeDotDot.induct with
  | case1 => exact absurd h (by simp [hasDD])
  | case2 c => exact absurd h (by simp [hasDD])
  | case3 a b rest hdd ih =>
    rw [removeDotDot, if_pos hdd]
    calc (removeDotDot rest).length ≤ rest.length := length_removeDotDot_le rest
      _ < (a :: b :: rest).length := by simp; omega
  | case4 a b rest hdd ih =>
    rw [removeDotDot, if_neg hdd]
    rw [hasDD, if_neg hdd] at h
    simpa using ih h

lemma hasDD_filter {f : Char → Bool} (hdot : f '.' = true) {l : List Char}
    (h : hasDD l = true) : hasDD (l.filter f) = true := by
  induction l with
  | nil => exact absurd h (by simp [hasDD])
  | cons a l ih =>
    match l, h with
    | b :: rest, h =>
      rw [hasDD] at h
      split at h
      · obtain ⟨ha, hb⟩ := (by assumption : a = '.' ∧ b = '.')
        subst ha; subst hb
        rw [List.filter_cons_of_pos hdot, List.filter_cons_of_pos hdot]
        rw [hasDD, if_pos ⟨rfl, rfl⟩]
      · have htail := ih h
        rw [List.filter_cons]
        split
        · exact hasDD_cons_of a htail
        · exact htail

lemma length_dropLeadingDots_le (l : List Char) :
    (dropLeadingDots l).length ≤ l.length :=
  (List.dropWhile_sublist _).length_le

lemma sanitize_length_lt_of_sep {s : String} (h : containsSep s = true) :
    (sanitize s).length < s.length := by
  obtain ⟨c, hc, hsep⟩ := List.any_eq_true.mp h
  have hfil : (s.data.filter (fun c => !isIllegalChar c)).length < s.data.length := by
    apply List.length_filter_lt_length_iff_exists.mpr
    refine ⟨c, hc, ?_⟩
    simp only [isIllegalChar, Bool.not_eq_true']
    rcases Bool.or_eq_true _ _ |>.mp hsep with h1 | h1
    · simp [h1]
    · simp [h1]
  calc (sanitize s).length
      = (sanitizeChars s.data).length := rfl
    _ ≤ (removeDotDot (s.data.filter (fun c => !isIllegalChar c))).length :=
        length_dropLeadingDots_le _
    _ ≤ (s.data.filter (fun c => !isIllegalChar c)).length :=
        length_removeDotDot_le _
    _ < s.data.length := hfil

lemma sanitize_length_lt_of_dotdot {s : String} (h : containsDotDot s = true) :
    (sanitize s).length < s.length := by
  have hfil : hasDD (s.data.filter (fun c => !isIllegalChar c)) = true :=
    hasDD_filter (by decide) h
  calc (sanitize s).length
      = (sanitizeChars s.data).length := rfl
    _ ≤ (removeDotDot (s.data.filter (fun c => !isIllegalChar c))).length :=
        length_dropLeadingDots_le _
    _ < (s.data.filter (fun c => !isIllegalChar c)).length :=
        length_removeDotDot_lt hfil
    _ ≤ s.data.length := List.length_filter_le _ _

lemma sanitize_ne_of_dangerous {s : String}
    (h : containsSep s = true ∨ containsDotDot s = true) :
    sanitize s ≠ s := by
  intro heq
  have hlen : (sanitize s).length < s.length := by
    rcases h with h | h
    · exact sanitize_length_lt_of_sep h
    · exact sanitize_length_lt_of_dotdot h
  rw [heq] at hlen
  exact Nat.lt_irrefl _ hlen

lemma ne_empty_of_dangerous {s : String}
    (h : containsSep s = true ∨ containsDotDot s = true) : s ≠ "" := by
  rintro rfl
  rcases h with h | h
  · exact absurd h (by decide)
  · exact absurd h (by decide)

/-! ### Claim theorems -/

/-- C1: the spec claims that `serve(username, filename)` never returns the
bytes of a file outside `uploadsRoot/username/`, even for traversal
sequences in `filename`.  The code's guard is a raw string-prefix check,
`filePath.startsWith(userDir)`, with no trailing separator, so a request for
user `alice` with filename `../alicex/secret.txt` resolves to the sibling
directory `uploadsRoot/alicex/` — whose rendered path string extends
`uploadsRoot/alice` — passes the guard, and streams a file that lies outside
`uploadsRoot/alice/`. -/
theorem c1_serve_escapes_user_directory :
    serve (["srv", "uploads"])
        (FS.mk ([["srv", "uploads", "alicex", "secret.txt"]])
          ([["srv", "uploads"], ["srv", "uploads", "alice"],
            ["srv", "uploads", "alicex"]]))
        ("alice") ("../alicex/secret.txt")
      = ServeResult.send (["srv", "uploads", "alicex", "secret.txt"]) ∧
    withinDir (["srv", "uploads", "alice"])
        (["srv", "uploads", "alicex", "secret.txt"]) = false := by
  exact ⟨by decide, by decide⟩

/-- C2: every username containing a path separator or a `..` sequence is
rejected by registration with the 400 `username inválido` error and no side
effect — sanitization strictly shortens such a username, so the
`cleanUser !== username` guard fires. -/
theorem c2_register_rejects_unsafe_username
    (hash : String → String) (db : DB) (username password : String)
    (hu : containsSep username = true ∨ containsDotDot username = true)
    (hp : password ≠ "") :
    register hash db username password
      = ⟨400, "username inválido", none, none, none⟩ := by
  have h1 : ¬(username = "" ∨ password = "") := by
    rintro (h | h)
    · exact ne_empty_of_dangerous hu h
    · exact hp h
  unfold register
  rw [if_neg h1, if_pos (sanitize_ne_of_dangerous hu)]

theorem c2_register_rejects_unsafe_username_witness :
    (containsSep ("a/b") = true ∨ containsDotDot ("a/b") = true) ∧
    (("pw" : String) ≠ ("")) ∧
    register (fun p => p) initialDB ("a/b") ("pw")
      = ⟨400, "username inválido", none, none, none⟩ := by
  refine ⟨Or.inl (by decide), by decide, ?_⟩
  exact c2_register_rejects_unsafe_username (fun p => p) initialDB ("a/b") ("pw")
    (Or.inl (by decide)) (by decide)

/-- C4: the path sanitizer is idempotent:
`sanitize(sanitize(x)) = sanitize(x)` for every string `x`. -/
theorem c4_sanitize_idempotent (x : String) :
    sanitize (sanitize x) = sanitize x :=
  sanitize_idem x

/-- C9: a registration request that fails (any 400 branch: missing field,
invalid username, or duplicate) performs no side effect: the snapshot is not
written, no upload directory is created, and no session is established. -/
theorem c9_register_failure_atomic (hash : String → String) (db : DB)
    (username password : String)
    (h : (register hash db username password).status = 400) :
    (register hash db username password).savedDb = none ∧
    (register hash db username password).dirCreated = none ∧
    (register hash db username password).sessionSet = none := by
  unfold register at h ⊢
  split_ifs at h ⊢ <;> simp_all

theorem c9_register_failure_atomic_witness :
    (register (fun p => p) initialDB ("alice") ("")).status = 400 ∧
    (register (fun p => p) initialDB ("alice") ("")).savedDb = none ∧
    (register (fun p => p) initialDB ("alice") ("")).dirCreated = none ∧
    (register (fun p => p) initialDB ("alice") ("")).sessionSet = none := by
  refine ⟨by decide, ?_⟩
  exact c9_register_failure_atomic (fun p => p) initialDB ("alice") ("") (by decide)

/-- C10: the stored filename is
`timestamp + '-' + random + '-' + sanitize(originalName)`, with the literal
`file` standing in when `sanitize(originalName)` is empty; consequently the
stored name is never empty and its trailing component is a sanitized
(sanitize-fixed, nonempty) path segment. -/
theorem c10_stored_filename_shape (ts rnd : Nat) (orig : String) :
    (sanitize orig ≠ "" →
      storedFilename ts rnd orig
        = toString ts ++ ("-") ++ toString rnd ++ ("-") ++ sanitize orig) ∧
    (sanitize orig = "" →
      storedFilename ts rnd orig
        = toString ts ++ ("-") ++ toString rnd ++ ("-") ++ ("file")) ∧
    storedFilename ts rnd orig ≠ ("") ∧
    (∃ t, storedFilename ts rnd orig
        = toString ts ++ ("-") ++ toString rnd ++ ("-") ++ t ∧
      sanitize t = t ∧ t ≠ ("")) := by
  refine ⟨?_, ?_, ?_, ?_⟩
  · intro h
    unfold storedFilename
    rw [if_neg h]
  · intro h
    unfold storedFilename
    rw [if_pos h]
  · intro h
    have hl := congrArg String.length h
    simp only [storedFilename, String.length_append] at hl
    have h1 : ("-" : String).length = 1 := rfl
    have h2 : ("" : String).length = 0 := rfl
    omega
  · by_cases h : sanitize orig = ""
    · refine ⟨("file"), ?_, by decide, by decide⟩
      unfold storedFilename
      rw [if_pos h]
    · refine ⟨sanitize orig, ?_, sanitize_idem orig, h⟩
      unfold storedFilename
      rw [if_neg h]

theorem c10_stored_filename_shape_witness :
    sanitize ("script.lua") ≠ ("") ∧
    storedFilename 7 3 ("script.lua")
      = toString 7 ++ ("-") ++ toString 3 ++ ("-") ++ sanitize ("script.lua") := by
  refine ⟨by decide, ?_⟩
  exact (c10_stored_filename_shape 7 3 ("script.lua")).1 (by decide)

lemma uploadRoute_auth_file (ts rnd : Nat) (s : Nat × String) (f : UploadedFile) :
    uploadRoute ts rnd (some s) (some f)
      = (if lowerStr (extname f.originalname) ∈ ALLOWED_EXT then
          (if FILE_SIZE_LIMIT < f.size then UploadOutcome.payloadTooLarge
           else UploadOutcome.stored (sanitize s.2)
             (storedFilename ts rnd f.originalname))
         else UploadOutcome.unsupportedType) := by
  by_cases hc : lowerStr (extname f.originalname) ∈ ALLOWED_EXT
  · by_cases hs : FILE_SIZE_LIMIT < f.size
    · simp [uploadRoute, requireLogin, multerSingle, fileFilter, hc, hs]
    · simp [uploadRoute, requireLogin, multerSingle, fileFilter, hc, hs]
  · simp [uploadRoute, requireLogin, multerSingle, fileFilter, hc]

/-- C3 counterexample: the 404 branch of the raw-serve handler tests only
`fs.existsSync`, not that the target is a regular file.  Resolving filename
`.` yields the user directory itself, which exists as a directory and is not
a regular file, yet the handler reaches its send branch instead of
returning NotFound as the claim requires. -/
theorem c3_serve_notfound_counterexample :
    serve (["srv", "uploads"])
        (FS.mk ([]) ([["srv", "uploads"], ["srv", "uploads", "alice"]]))
        ("alice") (".")
      = ServeResult.send (["srv", "uploads", "alice"]) ∧
    (FS.mk ([]) ([["srv", "uploads"], ["srv", "uploads", "alice"]])).files.contains
        (["srv", "uploads", "alice"]) = false := by
  exact ⟨by decide, by decide⟩

/-- C3 (amended): BadRequest is returned exactly when the resolved target's
path string does not start with the resolved base directory's string;
NotFound exactly when the prefix check passes but the resolved path does not
exist — whether or not it is a regular file; otherwise the handler sends
whatever the resolved path names, even an existing directory. -/
theorem c3_serve_case_analysis (root : List String) (fs : FS)
    (username filename : String) :
    (serve root fs username filename = ServeResult.badRequest ↔
      jsStartsWith
          (pathStr (resolvePath (resolvePath root (sanitize username)) filename))
          (pathStr (resolvePath root (sanitize username))) = false) ∧
    (serve root fs username filename = ServeResult.notFound ↔
      jsStartsWith
          (pathStr (resolvePath (resolvePath root (sanitize username)) filename))
          (pathStr (resolvePath root (sanitize username))) = true ∧
      fsExists fs (resolvePath (resolvePath root (sanitize username)) filename)
        = false) ∧
    (∀ p, serve root fs username filename = ServeResult.send p ↔
      jsStartsWith
          (pathStr (resolvePath (resolvePath root (sanitize username)) filename))
          (pathStr (resolvePath root (sanitize username))) = true ∧
      fsExists fs (resolvePath (resolvePath root (sanitize username)) filename)
        = true ∧
      p = resolvePath (resolvePath root (sanitize username)) filename) := by
  by_cases h1 : jsStartsWith
      (pathStr (resolvePath (resolvePath root (sanitize username)) filename))
      (pathStr (resolvePath root (sanitize username))) = true
  · by_cases h2 : fsExists fs
        (resolvePath (resolvePath root (sanitize username)) filename) = true
    · refine ⟨?_, ?_, ?_⟩ <;> simp [serve, h1, h2, eq_comm]
    · refine ⟨?_, ?_, ?_⟩ <;> simp [serve, h1, h2]
  · refine ⟨?_, ?_, ?_⟩ <;> simp [serve, h1]

/-- C5: upload validation applies in order with the first failure winning:
no session gives Unauthorized; then a disallowed (case-insensitive)
extension gives UnsupportedFileType regardless of size; then a size above
5 MiB gives PayloadTooLarge; only when all three pass is the file stored
under the user's directory with the generated name. -/
theorem c5_upload_validation_order (ts rnd : Nat) :
    (∀ file, uploadRoute ts rnd none file = UploadOutcome.unauthorized) ∧
    (∀ s f, lowerStr (extname f.originalname) ∉ ALLOWED_EXT →
      uploadRoute ts rnd (some s) (some f) = UploadOutcome.unsupportedType) ∧
    (∀ s f, lowerStr (extname f.originalname) ∈ ALLOWED_EXT →
      FILE_SIZE_LIMIT < f.size →
      uploadRoute ts rnd (some s) (some f) = UploadOutcome.payloadTooLarge) ∧
    (∀ s f, lowerStr (extname f.originalname) ∈ ALLOWED_EXT →
      f.size ≤ FILE_SIZE_LIMIT →
      uploadRoute ts rnd (some s) (some f)
        = UploadOutcome.stored (sanitize s.2)
            (storedFilename ts rnd f.originalname)) := by
  refine ⟨fun file => rfl, fun s f h => ?_, fun s f h hs => ?_,
    fun s f h hs => ?_⟩
  · rw [uploadRoute_auth_file, if_neg h]
  · rw [uploadRoute_auth_file, if_pos h, if_pos hs]
  · rw [uploadRoute_auth_file, if_pos h, if_neg (by omega)]

theorem c5_upload_validation_order_witness :
    lowerStr (extname ("image.png")) ∉ ALLOWED_EXT ∧
    uploadRoute 7 3 (some (1, ("alice"))) (some (UploadedFile.mk ("image.png") 10))
      = UploadOutcome.unsupportedType := by
  refine ⟨by decide, ?_⟩
  exact (c5_upload_validation_order 7 3).2.1 (1, ("alice"))
    (UploadedFile.mk ("image.png") 10) (by decide)

/-- C6: for an authenticated upload with an allowed extension, a file of
exactly 5 MiB is accepted and stored while a file of 5 MiB plus one byte is
rejected with PayloadTooLarge. -/
theorem c6_size_boundary (ts rnd : Nat) (s : Nat × String) (name : String)
    (h : lowerStr (extname name) ∈ ALLOWED_EXT) :
    uploadRoute ts rnd (some s) (some (UploadedFile.mk name FILE_SIZE_LIMIT))
      = UploadOutcome.stored (sanitize s.2) (storedFilename ts rnd name) ∧
    uploadRoute ts rnd (some s) (some (UploadedFile.mk name (FILE_SIZE_LIMIT + 1)))
      = UploadOutcome.payloadTooLarge := by
  constructor
  · rw [uploadRoute_auth_file, if_pos h, if_neg (by simp)]
  · rw [uploadRoute_auth_file, if_pos h, if_pos (by simp)]

theorem c6_size_boundary_witness :
    lowerStr (extname ("script.lua")) ∈ ALLOWED_EXT ∧
    uploadRoute 7 3 (some (1, ("alice")))
        (some (UploadedFile.mk ("script.lua") FILE_SIZE_LIMIT))
      = UploadOutcome.stored (sanitize ("alice")) (storedFilename 7 3 ("script.lua")) ∧
    uploadRoute 7 3 (some (1, ("alice")))
        (some (UploadedFile.mk ("script.lua") (FILE_SIZE_LIMIT + 1)))
      = UploadOutcome.payloadTooLarge := by
  refine ⟨by decide, ?_, ?_⟩
  · exact (c6_size_boundary 7 3 (1, ("alice")) ("script.lua") (by decide)).1
  · exact (c6_size_boundary 7 3 (1, ("alice")) ("script.lua") (by decide)).2

/-- C7: for nonempty credentials, a login naming a nonexistent user and a
login naming an existing user with a wrong password produce identical
observable failures — the same 400 status and the same generic message. -/
theorem c7_login_failure_indistinguishable
    (compare : String → String → Bool) (db : DB) (u1 p1 u2 p2 : String)
    (h1 : u1 ≠ "") (h2 : p1 ≠ "") (h3 : u2 ≠ "") (h4 : p2 ≠ "")
    (hnone : db.users.find? (fun u => u.username = u1) = none)
    (hsome : ∃ u, db.users.find? (fun u => u.username = u2) = some u ∧
      compare p2 u.passwordHash = false) :
    login compare db u1 p1 = login compare db u2 p2 ∧
    login compare db u1 p1 = ⟨400, "Credenciais inválidas", none⟩ := by
  obtain ⟨u, hfind, hcomp⟩ := hsome
  have e1 : login compare db u1 p1 = ⟨400, "Credenciais inválidas", none⟩ := by
    unfold login
    rw [if_neg (by rintro (h | h) <;> simp_all), hnone]
  have e2 : login compare db u2 p2 = ⟨400, "Credenciais inválidas", none⟩ := by
    unfold login
    rw [if_neg (by rintro (h | h) <;> simp_all), hfind]
    simp [hcomp]
  exact ⟨e1.trans e2.symm, e1⟩

theorem c7_login_failure_indistinguishable_witness :
    (DB.mk ([User.mk 1 ("alice") ("secret123#")]) 2).users.find?
        (fun u => u.username = ("bob")) = none ∧
    (∃ u, (DB.mk ([User.mk 1 ("alice") ("secret123#")]) 2).users.find?
        (fun u => u.username = ("alice")) = some u ∧
      (fun p h => h == p ++ ("#")) ("wrongpw") u.passwordHash = false) ∧
    login (fun p h => h == p ++ ("#"))
        (DB.mk ([User.mk 1 ("alice") ("secret123#")]) 2) ("bob") ("x")
      = login (fun p h => h == p ++ ("#"))
        (DB.mk ([User.mk 1 ("alice") ("secret123#")]) 2) ("alice") ("wrongpw") := by
  refine ⟨by decide, ⟨User.mk 1 ("alice") ("secret123#"), by decide, by decide⟩, ?_⟩
  exact (c7_login_failure_indistinguishable (fun p h => h == p ++ ("#"))
    (DB.mk ([User.mk 1 ("alice") ("secret123#")]) 2) ("bob") ("x") ("alice")
    ("wrongpw") (by decide) (by decide) (by decide) (by decide) (by decide)
    ⟨User.mk 1 ("alice") ("secret123#"), by decide, by decide⟩).1

/-- C8: the initial user-store snapshot satisfies the store invariant —
`nextId` strictly greater than every issued id and no two users with the
same (case-sensitively compared) username — and every successful
registration preserves it. -/
theorem c8_store_invariant_preserved (hash : String → String) (db : DB)
    (username password : String) :
    StoreInv initialDB ∧
    (∀ db', StoreInv db →
      (register hash db username password).savedDb = some db' →
      StoreInv db') := by
  constructor
  · exact ⟨fun u hu => absurd hu (List.not_mem_nil u), by simp [initialDB]⟩
  · intro db' hinv hsave
    unfold register at hsave
    by_cases hA : username = "" ∨ password = ""
    · rw [if_pos hA] at hsave
      exact absurd hsave (by simp)
    rw [if_neg hA] at hsave
    by_cases hB : sanitize username ≠ username
    · rw [if_pos hB] at hsave
      exact absurd hsave (by simp)
    rw [if_neg hB] at hsave
    by_cases hC : (db.users.find? (fun u => u.username = username)).isSome = true
    · rw [if_pos hC] at hsave
      exact absurd hsave (by simp)
    rw [if_neg hC] at hsave
    simp only [Option.some.injEq] at hsave
    subst hsave
    have hfn : db.users.find? (fun u => u.username = username) = none :=
      Option.not_isSome_iff_eq_none.mp (by simpa using hC)
    constructor
    · intro u hu
      rcases List.mem_append.mp hu with h | h
      · exact Nat.lt_succ_of_lt (hinv.1 u h)
      · rw [List.mem_singleton.mp h]
        exact Nat.lt_succ_self _
    · rw [List.map_append]
      refine (List.nodup_append).mpr ⟨hinv.2, List.nodup_singleton _, ?_⟩
      intro a ha hb
      rcases List.mem_singleton.mp (by simpa using hb) with rfl
      obtain ⟨u, hu, hau⟩ := List.mem_map.mp ha
      have hne := List.find?_eq_none.mp hfn u hu
      simp only [decide_eq_true_eq] at hne
      exact hne hau

theorem c8_store_invariant_preserved_witness :
    StoreInv (DB.mk ([User.mk 1 ("alice") ("h1")]) 2) ∧
    (register (fun p => p) (DB.mk ([User.mk 1 ("alice") ("h1")]) 2)
        ("bob") ("pw")).savedDb
      = some (DB.mk ([User.mk 1 ("alice") ("h1"), User.mk 2 ("bob") ("pw")]) 3) ∧
    StoreInv (DB.mk ([User.mk 1 ("alice") ("h1"), User.mk 2 ("bob") ("pw")]) 3) := by
  refine ⟨⟨by decide, by decide⟩, by decide, ?_⟩
  exact (c8_store_invariant_preserved (fun p => p)
      (DB.mk ([User.mk 1 ("alice") ("h1")]) 2) ("bob") ("pw")).2
    (DB.mk ([User.mk 1 ("alice") ("h1"), User.mk 2 ("bob") ("pw")]) 3)
    ⟨by decide, by decide⟩ (by decide)

end ScriptsNessAuth
